import Mathlib

/-!
Shallow embedding of the fc_graph_layout force-directed graph layout library
(single translation unit, C/C++). Machine floats are modelled as exact reals;
FLT_EPSILON is the concrete single-precision machine epsilon 2^(-23); the
INFINITY seed of the energy field is modelled with EReal's top element.
-/

namespace FcLayout

/-- 2D vector of the library (struct fc_v2f, two floats). -/
@[ext]
structure fc_v2f where
  x : ℝ
  y : ℝ

/-- Graph node (struct fc_node): a 2D position. -/
structure fc_node where
  position : fc_v2f

/-- Graph edge (struct fc_edge): two int indices and a float weight. -/
structure fc_edge where
  first : ℤ
  second : ℤ
  weight : ℝ

/-- Graph (struct fc_graph): node array plus edge array. -/
structure fc_graph where
  nodes : List fc_node
  edges : List fc_edge

/-- Layout configuration (struct fc_layout_info). -/
structure fc_layout_info where
  repulsive_force_scale : ℝ
  optimal_distance : ℝ
  initial_step_length : ℝ
  iteration_cap : ℕ
  min_movement : ℝ
  central_force_scale : ℝ
  step_multiplier : ℝ

/-- Dynamic layout state (struct fc_dynamic_layout_state). The energy field
holds a float that the code seeds with INFINITY, modelled as EReal. -/
structure fc_dynamic_layout_state where
  step : ℝ
  energy : EReal
  progress : ℤ
  biggest_movement_in_iteration : ℝ

/-- FLT_EPSILON for IEEE single precision, the guard constant of the code. -/
noncomputable def FLT_EPSILON : ℝ := 1 / 8388608

noncomputable def fc_v2f_subtract (a b : fc_v2f) : fc_v2f := ⟨a.x - b.x, a.y - b.y⟩

noncomputable def fc_v2f_add (a b : fc_v2f) : fc_v2f := ⟨a.x + b.x, a.y + b.y⟩

noncomputable def fc_v2f_multiply (a : fc_v2f) (b : ℝ) : fc_v2f := ⟨a.x * b, a.y * b⟩

noncomputable def fc_v2f_length_sq (a : fc_v2f) : ℝ := a.x * a.x + a.y * a.y

noncomputable def fc_v2f_length (a : fc_v2f) : ℝ := Real.sqrt (fc_v2f_length_sq a)

noncomputable def fc_v2f_normalize (a : fc_v2f) : fc_v2f :=
  if fc_v2f_length a < FLT_EPSILON then ⟨0, 0⟩
  else fc_v2f_multiply a (1 / fc_v2f_length a)

/-- fc_attractive_force(p1, p2, scale, optimal_distance) from the source:
the difference vector p2 - p1 scaled by scale * |p2 - p1| / optimal_distance. -/
noncomputable def fc_attractive_force (p1 p2 : fc_v2f) (scale optimal_distance : ℝ) : fc_v2f :=
  let diff := fc_v2f_subtract p2 p1
  fc_v2f_multiply diff (scale * fc_v2f_length diff / optimal_distance)

/-- fc_repulsive_force(p1, p2, scale, optimal_distance) from the source:
zero when the distance is below FLT_EPSILON, otherwise the difference vector
scaled by -scale * optimal_distance / dist^3. -/
noncomputable def fc_repulsive_force (p1 p2 : fc_v2f) (scale optimal_distance : ℝ) : fc_v2f :=
  let diff := fc_v2f_subtract p2 p1
  let dist := fc_v2f_length diff
  if dist < FLT_EPSILON then ⟨0, 0⟩
  else fc_v2f_multiply diff (-scale * optimal_distance / (dist * dist * dist))

/-- fc_compute_adaptive_step from the source; the C out-parameter progress is
returned as the first component, the new step as the second. -/
noncomputable def fc_compute_adaptive_step (progress : ℤ) (t step : ℝ)
    (last_energy energy : EReal) : ℤ × ℝ :=
  if energy < last_energy then
    if 5 ≤ progress + 1 then (0, step / t)
    else (progress + 1, step)
  else (0, step * t)

/-- Position of node i of the node array (out-of-range access is undefined
behavior in the source; we return the origin). -/
noncomputable def fc_nodePos (nodes : List fc_node) (i : ℕ) : fc_v2f :=
  (nodes.getD i ⟨⟨0, 0⟩⟩).position

/-- The first accumulation loop of fc_compute_dynamic_step, over the edge
array: attractive force from every edge incident to node i, self-loop edges
skipped, negative endpoint skipped. -/
noncomputable def fc_attract_accum (nodes : List fc_node) (edges : List fc_edge) (i : ℕ)
    (optimal_distance : ℝ) : fc_v2f :=
  edges.foldl (fun force edge =>
    if edge.first = edge.second then force
    else
      let other : ℤ :=
        if edge.first = (i : ℤ) then edge.second
        else if edge.second = (i : ℤ) then edge.first
        else -1
      if 0 ≤ other then
        fc_v2f_add force
          (fc_attractive_force (fc_nodePos nodes i) (fc_nodePos nodes other.toNat)
            edge.weight optimal_distance)
      else force) ⟨0, 0⟩

/-- The second accumulation loop of fc_compute_dynamic_step, over all node
indices j, skipping j = i, continuing from the attractive accumulation. -/
noncomputable def fc_repulse_accum (nodes : List fc_node) (i : ℕ)
    (repulsive_force_scale optimal_distance : ℝ) (start : fc_v2f) : fc_v2f :=
  (List.range nodes.length).foldl (fun force j =>
    if i = j then force
    else
      fc_v2f_add force
        (fc_repulsive_force (fc_nodePos nodes i) (fc_nodePos nodes j)
          repulsive_force_scale optimal_distance)) start

/-- Accumulated force on node i before the central-force term is added. -/
noncomputable def fc_node_force_base (nodes : List fc_node) (edges : List fc_edge) (i : ℕ)
    (repulsive_force_scale optimal_distance : ℝ) : fc_v2f :=
  fc_repulse_accum nodes i repulsive_force_scale optimal_distance
    (fc_attract_accum nodes edges i optimal_distance)

/-- Total accumulated force on node i in one pass: edge attractions, pairwise
repulsions, then the central-force term toward the origin. -/
noncomputable def fc_node_force (nodes : List fc_node) (edges : List fc_edge) (i : ℕ)
    (repulsive_force_scale optimal_distance central_force_scale : ℝ) : fc_v2f :=
  fc_v2f_add (fc_node_force_base nodes edges i repulsive_force_scale optimal_distance)
    (fc_attractive_force (fc_nodePos nodes i) ⟨0, 0⟩ central_force_scale optimal_distance)

/-- Body of the per-node loop of fc_compute_dynamic_step: the accumulator holds
the (in-place updated) node array, the running energy sum and the running
biggest movement. -/
noncomputable def fc_update_node (edges : List fc_edge)
    (repulsive_force_scale optimal_distance central_force_scale step : ℝ)
    (acc : List fc_node × ℝ × ℝ) (i : ℕ) : List fc_node × ℝ × ℝ :=
  let force := fc_node_force acc.1 edges i repulsive_force_scale optimal_distance
    central_force_scale
  let dp := fc_v2f_multiply (fc_v2f_normalize force) step
  let dpLen := fc_v2f_length dp
  (acc.1.set i ⟨fc_v2f_add (fc_nodePos acc.1 i) dp⟩,
   acc.2.1 + fc_v2f_length_sq force,
   if acc.2.2 < dpLen then dpLen else acc.2.2)

/-- One full pass of fc_compute_dynamic_step over all nodes in index order,
starting from energy 0 and biggest movement 0. -/
noncomputable def fc_pass (nodes : List fc_node) (edges : List fc_edge)
    (repulsive_force_scale optimal_distance central_force_scale step : ℝ) :
    List fc_node × ℝ × ℝ :=
  (List.range nodes.length).foldl
    (fc_update_node edges repulsive_force_scale optimal_distance central_force_scale step)
    (nodes, 0, 0)

/-- The local variable optimal_distance of fc_compute_dynamic_step: the fourth
power of the configured optimal distance divided by repulsive_force_scale. -/
noncomputable def fc_derived_od (layout_info : fc_layout_info) : ℝ :=
  (layout_info.optimal_distance * layout_info.optimal_distance *
    layout_info.optimal_distance * layout_info.optimal_distance) /
    layout_info.repulsive_force_scale

/-- fc_begin_dynamic_layout from the source: sets step, energy (INFINITY) and
progress; the biggest-movement field is left untouched. -/
noncomputable def fc_begin_dynamic_layout (state : fc_dynamic_layout_state)
    (layout_info : fc_layout_info) : fc_dynamic_layout_state :=
  { state with
    step := layout_info.initial_step_length
    energy := ⊤
    progress := 0 }

/-- fc_compute_dynamic_step from the source: one full pass, then the adaptive
step update; the graph's node array is updated in place. -/
noncomputable def fc_compute_dynamic_step (state : fc_dynamic_layout_state)
    (graph : fc_graph) (layout_info : fc_layout_info) :
    fc_dynamic_layout_state × fc_graph :=
  let res := fc_pass graph.nodes graph.edges layout_info.repulsive_force_scale
    (fc_derived_od layout_info) layout_info.central_force_scale state.step
  let ps := fc_compute_adaptive_step state.progress layout_info.step_multiplier
    state.step state.energy ((res.2.1 : ℝ) : EReal)
  (⟨ps.2, ((res.2.1 : ℝ) : EReal), ps.1, res.2.2⟩, ⟨res.1, graph.edges⟩)

/-- The while loop of fc_layout_graph, with the remaining fuel (iteration_cap
minus iterations already done) as first argument; returns the final state, the
final graph and the number of passes executed. -/
noncomputable def fc_layout_loop (layout_info : fc_layout_info) :
    ℕ → fc_dynamic_layout_state × fc_graph → ℕ →
    fc_dynamic_layout_state × fc_graph × ℕ
  | 0, sg, iter => (sg.1, sg.2, iter)
  | fuel + 1, sg, iter =>
    let r := fc_compute_dynamic_step sg.1 sg.2 layout_info
    if r.1.biggest_movement_in_iteration < layout_info.min_movement then
      (r.1, r.2, iter + 1)
    else fc_layout_loop layout_info fuel r (iter + 1)

/-- fc_layout_graph from the source: zero-initialized state, begin, then the
capped loop of dynamic steps; we also return the iteration count of the loop. -/
noncomputable def fc_layout_graph (graph : fc_graph) (layout_info : fc_layout_info) :
    fc_dynamic_layout_state × fc_graph × ℕ :=
  fc_layout_loop layout_info layout_info.iteration_cap
    (fc_begin_dynamic_layout ⟨0, 0, 0, 0⟩ layout_info, graph) 0

/-- Caller-paced driving of the dynamic interface: k successive calls of
fc_compute_dynamic_step on a state/graph pair. -/
noncomputable def fc_iterate (layout_info : fc_layout_info) :
    ℕ → fc_dynamic_layout_state × fc_graph → fc_dynamic_layout_state × fc_graph
  | 0, sg => sg
  | k + 1, sg => fc_iterate layout_info k (fc_compute_dynamic_step sg.1 sg.2 layout_info)

/-- fc_layout_info_default from the source: scale 0.6, optimal distance 16,
initial step 100, iteration cap INT_MAX, min movement 1, no central force,
step multiplier 0.9. -/
noncomputable def fc_layout_info_default : fc_layout_info :=
  ⟨3 / 5, 16, 100, 2147483647, 1, 0, 9 / 10⟩

/-- The net force the engine accumulates on node 0 of the isolated-edge
scenario: two nodes at (0,0) and (d,0) joined by one edge of weight w, with
configured optimal distance D, repulsive scale C, no central force, and the
derived constant D^4/C passed as the optimal-distance parameter exactly as in
fc_compute_dynamic_step. -/
noncomputable def fc_twoNodeNetForce (D w C d : ℝ) : fc_v2f :=
  fc_node_force [⟨⟨0, 0⟩⟩, ⟨⟨d, 0⟩⟩] [⟨0, 1, w⟩] 0 C ((D * D * D * D) / C) 0

/-! Basic facts about the vector primitives, shared by the claim proofs. -/

theorem fc_v2f_add_zero (v : fc_v2f) : fc_v2f_add v ⟨0, 0⟩ = v := by
  cases v; simp [fc_v2f_add]

theorem fc_v2f_zero_add (v : fc_v2f) : fc_v2f_add ⟨0, 0⟩ v = v := by
  cases v; simp [fc_v2f_add]

theorem fc_v2f_multiply_zero (v : fc_v2f) : fc_v2f_multiply v 0 = ⟨0, 0⟩ := by
  simp [fc_v2f_multiply]

theorem fc_v2f_multiply_multiply (v : fc_v2f) (a b : ℝ) :
    fc_v2f_multiply (fc_v2f_multiply v a) b = fc_v2f_multiply v (a * b) := by
  simp [fc_v2f_multiply, mul_assoc]

theorem fc_v2f_length_sq_nonneg (v : fc_v2f) : 0 ≤ fc_v2f_length_sq v := by
  have hx := mul_self_nonneg v.x
  have hy := mul_self_nonneg v.y
  unfold fc_v2f_length_sq
  linarith

theorem fc_v2f_length_nonneg (v : fc_v2f) : 0 ≤ fc_v2f_length v :=
  Real.sqrt_nonneg _

theorem fc_v2f_length_zero : fc_v2f_length ⟨0, 0⟩ = 0 := by
  simp [fc_v2f_length, fc_v2f_length_sq]

theorem fc_v2f_length_multiply (v : fc_v2f) (c : ℝ) :
    fc_v2f_length (fc_v2f_multiply v c) = |c| * fc_v2f_length v := by
  unfold fc_v2f_length fc_v2f_multiply fc_v2f_length_sq
  have h : v.x * c * (v.x * c) + v.y * c * (v.y * c)
      = (c * c) * (v.x * v.x + v.y * v.y) := by ring
  simp only [h]
  rw [Real.sqrt_mul (mul_self_nonneg c)]
  congr 1
  rw [show c * c = c ^ 2 by ring, Real.sqrt_sq_eq_abs]

/-- Length of a vector lying on the x axis with nonnegative x component. -/
theorem fc_v2f_length_axis (a : ℝ) (h : 0 ≤ a) : fc_v2f_length ⟨a, 0⟩ = a := by
  unfold fc_v2f_length fc_v2f_length_sq
  simp only [mul_zero, add_zero]
  exact Real.sqrt_mul_self h

theorem FLT_EPSILON_pos : 0 < FLT_EPSILON := by norm_num [FLT_EPSILON]

theorem fc_v2f_normalize_zero : fc_v2f_normalize ⟨0, 0⟩ = ⟨0, 0⟩ := by
  unfold fc_v2f_normalize
  rw [if_pos]
  rw [fc_v2f_length_zero]
  exact FLT_EPSILON_pos

theorem fc_v2f_normalize_of_big (v : fc_v2f) (h : FLT_EPSILON ≤ fc_v2f_length v) :
    fc_v2f_normalize v = fc_v2f_multiply v (1 / fc_v2f_length v) := by
  unfold fc_v2f_normalize
  rw [if_neg (not_lt.2 h)]

theorem fc_v2f_sub_neg (a b : fc_v2f) :
    fc_v2f_subtract a b = fc_v2f_multiply (fc_v2f_subtract b a) (-1) := by
  ext <;> simp only [fc_v2f_subtract, fc_v2f_multiply] <;> ring

/-- Moving a point by a multiple of the difference vector rescales the
difference vector. -/
theorem fc_v2f_sub_after_move (p q : fc_v2f) (c : ℝ) :
    fc_v2f_subtract q (fc_v2f_add p (fc_v2f_multiply (fc_v2f_subtract q p) c))
      = fc_v2f_multiply (fc_v2f_subtract q p) (1 - c) := by
  ext <;> simp [fc_v2f_subtract, fc_v2f_add, fc_v2f_multiply] <;> ring

/-- Attractive force with zero scale is the zero vector. -/
theorem fc_attractive_force_zero_scale (p1 p2 : fc_v2f) (od : ℝ) :
    fc_attractive_force p1 p2 0 od = ⟨0, 0⟩ := by
  unfold fc_attractive_force
  simp [fc_v2f_multiply]

/-! The adaptive step controller. -/

/-- Claim C5: the adaptive step controller increments progress on an energy
decrease, resetting to 0 and growing the step by 1/step_multiplier once the
incremented progress reaches 5; a non-decreasing energy resets progress to 0
and shrinks the step by step_multiplier; otherwise the step is unchanged. -/
theorem fc_adaptive_step_cases (p : ℤ) (t s : ℝ) (lastEnergy energy : EReal) :
    (energy < lastEnergy → 5 ≤ p + 1 →
      fc_compute_adaptive_step p t s lastEnergy energy = (0, s / t)) ∧
    (energy < lastEnergy → p + 1 < 5 →
      fc_compute_adaptive_step p t s lastEnergy energy = (p + 1, s)) ∧
    (¬ energy < lastEnergy →
      fc_compute_adaptive_step p t s lastEnergy energy = (0, s * t)) := by
  unfold fc_compute_adaptive_step
  refine ⟨fun h h5 => ?_, fun h h5 => ?_, fun h => ?_⟩
  · rw [if_pos h, if_pos h5]
  · rw [if_pos h, if_neg (not_le.2 h5)]
  · rw [if_neg h]

/-- Witness for C5: progress 4 with a strict energy decrease 3 < 5 grows the
step from 100 to 100 / (9/10). -/
theorem fc_adaptive_step_cases_witness :
    fc_compute_adaptive_step 4 (9 / 10) 100 ((5 : ℝ) : EReal) ((3 : ℝ) : EReal)
      = (0, 100 / (9 / 10)) :=
  (fc_adaptive_step_cases 4 (9 / 10) 100 ((5 : ℝ) : EReal) ((3 : ℝ) : EReal)).1
    (by exact_mod_cast (by norm_num : (3 : ℝ) < 5)) (by norm_num)

/-- The controller maps a nonnegative progress value into the interval 0..4. -/
theorem fc_adaptive_step_progress_mem (p : ℤ) (hp : 0 ≤ p) (t s : ℝ)
    (lastEnergy energy : EReal) :
    0 ≤ (fc_compute_adaptive_step p t s lastEnergy energy).1 ∧
      (fc_compute_adaptive_step p t s lastEnergy energy).1 ≤ 4 := by
  unfold fc_compute_adaptive_step
  by_cases h : energy < lastEnergy
  · by_cases h5 : (5 : ℤ) ≤ p + 1
    · rw [if_pos h, if_pos h5]
      exact ⟨le_refl 0, by norm_num⟩
    · rw [if_pos h, if_neg h5]
      exact ⟨by omega, by omega⟩
  · rw [if_neg h]
    exact ⟨le_refl 0, by norm_num⟩

/-- The progress field after one dynamic step is the controller's output on the
previous progress field. -/
theorem fc_compute_dynamic_step_progress (s : fc_dynamic_layout_state) (g : fc_graph)
    (li : fc_layout_info) :
    (fc_compute_dynamic_step s g li).1.progress =
      (fc_compute_adaptive_step s.progress li.step_multiplier s.step s.energy
        (((fc_pass g.nodes g.edges li.repulsive_force_scale (fc_derived_od li)
          li.central_force_scale s.step).2.1 : ℝ) : EReal)).1 := rfl

/-- Dynamic steps keep the progress field in the interval 0..4. -/
theorem fc_iterate_progress_mem (li : fc_layout_info) :
    ∀ (k : ℕ) (sg : fc_dynamic_layout_state × fc_graph),
      0 ≤ sg.1.progress → sg.1.progress ≤ 4 →
      0 ≤ (fc_iterate li k sg).1.progress ∧ (fc_iterate li k sg).1.progress ≤ 4 := by
  intro k
  induction k with
  | zero => intro sg h0 h4; exact ⟨h0, h4⟩
  | succ n ih =>
    intro sg h0 _
    have hmem := fc_adaptive_step_progress_mem sg.1.progress h0 li.step_multiplier
      sg.1.step sg.1.energy
      (((fc_pass sg.2.nodes sg.2.edges li.repulsive_force_scale (fc_derived_od li)
        li.central_force_scale sg.1.step).2.1 : ℝ) : EReal)
    have hstep : 0 ≤ (fc_compute_dynamic_step sg.1 sg.2 li).1.progress ∧
        (fc_compute_dynamic_step sg.1 sg.2 li).1.progress ≤ 4 := by
      rw [fc_compute_dynamic_step_progress]
      exact hmem
    exact ih (fc_compute_dynamic_step sg.1 sg.2 li) hstep.1 hstep.2

/-- Claim C10: begin sets progress to 0, and after any number of dynamic steps
following begin the progress field stays in the set 0..4: the controller resets
it to 0 whenever an increment would reach 5. -/
theorem fc_progress_invariant (li : fc_layout_info) (s0 : fc_dynamic_layout_state)
    (g : fc_graph) (k : ℕ) :
    (fc_begin_dynamic_layout s0 li).progress = 0 ∧
    0 ≤ (fc_iterate li k (fc_begin_dynamic_layout s0 li, g)).1.progress ∧
    (fc_iterate li k (fc_begin_dynamic_layout s0 li, g)).1.progress ≤ 4 := by
  refine ⟨rfl, ?_⟩
  exact fc_iterate_progress_mem li k (fc_begin_dynamic_layout s0 li, g)
    (by rw [show (fc_begin_dynamic_layout s0 li).progress = 0 from rfl])
    (by rw [show (fc_begin_dynamic_layout s0 li).progress = 0 from rfl]; norm_num)

/-- Claim C9: with central_force_scale 0 the central-force term contributes the
zero vector, so the accumulated force on every node equals the edge-plus-
repulsion accumulation alone (which determines the whole trajectory); for any
scale the accumulated force is that accumulation plus the attractive-force
formula applied toward the origin, once per node independent of connectivity. -/
theorem fc_central_force_structure (nodes : List fc_node) (edges : List fc_edge)
    (i : ℕ) (C od c : ℝ) :
    fc_node_force nodes edges i C od 0 = fc_node_force_base nodes edges i C od ∧
    fc_node_force nodes edges i C od c =
      fc_v2f_add (fc_node_force_base nodes edges i C od)
        (fc_attractive_force (fc_nodePos nodes i) ⟨0, 0⟩ c od) := by
  constructor
  · unfold fc_node_force
    rw [fc_attractive_force_zero_scale, fc_v2f_add_zero]
  · rfl

/-! The force model: actual magnitudes of the two pairwise forces. -/

/-- Counterexample to C2: for a = (0,0), b = (2,0), scale 1 and optimal
distance 1 the attractive force is (4,0), of magnitude 4, not
scale * |b-a| / D = 2: the code scales the full difference vector, so the
magnitude is quadratic in the separation, not linear. -/
theorem fc_attractive_force_magnitude_counterexample :
    fc_v2f_length (fc_attractive_force ⟨0, 0⟩ ⟨2, 0⟩ 1 1) ≠
      1 * fc_v2f_length (fc_v2f_subtract ⟨2, 0⟩ ⟨0, 0⟩) / 1 := by
  have hsub : fc_v2f_subtract (⟨2, 0⟩ : fc_v2f) ⟨0, 0⟩ = ⟨2, 0⟩ := by
    ext <;> simp [fc_v2f_subtract]
  have hlen : fc_v2f_length ⟨2, 0⟩ = 2 := fc_v2f_length_axis 2 (by norm_num)
  show fc_v2f_length (fc_v2f_multiply (fc_v2f_subtract ⟨2, 0⟩ ⟨0, 0⟩)
      (1 * fc_v2f_length (fc_v2f_subtract ⟨2, 0⟩ ⟨0, 0⟩) / 1)) ≠
      1 * fc_v2f_length (fc_v2f_subtract ⟨2, 0⟩ ⟨0, 0⟩) / 1
  rw [hsub, hlen, fc_v2f_length_multiply, hlen]
  norm_num

/-- Claim C2 amended: the attractive force from a toward b with scale s and
optimal-distance parameter D has magnitude s * |b-a|^2 / D (quadratic in the
separation), and its direction is the unit vector from a to b whenever the
separation is nonzero. -/
theorem fc_attractive_force_spec (a b : fc_v2f) (s D : ℝ) (hs : 0 ≤ s) (hD : 0 < D) :
    fc_v2f_length (fc_attractive_force a b s D) =
      s * (fc_v2f_length (fc_v2f_subtract b a) * fc_v2f_length (fc_v2f_subtract b a)) / D ∧
    (fc_v2f_length (fc_v2f_subtract b a) ≠ 0 →
      fc_attractive_force a b s D =
        fc_v2f_multiply
          (fc_v2f_multiply (fc_v2f_subtract b a) (1 / fc_v2f_length (fc_v2f_subtract b a)))
          (s * (fc_v2f_length (fc_v2f_subtract b a) *
            fc_v2f_length (fc_v2f_subtract b a)) / D)) := by
  set d := fc_v2f_length (fc_v2f_subtract b a) with hd
  have hd0 : 0 ≤ d := fc_v2f_length_nonneg _
  constructor
  · show fc_v2f_length (fc_v2f_multiply (fc_v2f_subtract b a) (s * d / D)) = s * (d * d) / D
    rw [fc_v2f_length_multiply, ← hd,
      abs_of_nonneg (div_nonneg (mul_nonneg hs hd0) hD.le)]
    ring
  · intro hne
    show fc_v2f_multiply (fc_v2f_subtract b a) (s * d / D) =
      fc_v2f_multiply (fc_v2f_multiply (fc_v2f_subtract b a) (1 / d)) (s * (d * d) / D)
    rw [fc_v2f_multiply_multiply]
    congr 1
    field_simp
    ring

/-- Witness for C2 amended: at a = (0,0), b = (2,0), scale 1, D = 1 the
attractive-force magnitude equals 1 * |b-a|^2 / 1. -/
theorem fc_attractive_force_spec_witness :
    fc_v2f_length (fc_attractive_force ⟨0, 0⟩ ⟨2, 0⟩ 1 1) =
      1 * (fc_v2f_length (fc_v2f_subtract ⟨2, 0⟩ ⟨0, 0⟩) *
        fc_v2f_length (fc_v2f_subtract ⟨2, 0⟩ ⟨0, 0⟩)) / 1 :=
  (fc_attractive_force_spec ⟨0, 0⟩ ⟨2, 0⟩ 1 1 (by norm_num) (by norm_num)).1

/-- Counterexample to C3: for a = (0,0), b = (2,0), scale 1 and derived
constant 1 the repulsive force is (-1/4, 0), of magnitude 1/4, not
scale * Dk / dist^3 = 1/8: the code scales the full difference vector, so the
magnitude falls off with the square of the distance, not the cube. -/
theorem fc_repulsive_force_magnitude_counterexample :
    fc_v2f_length (fc_repulsive_force ⟨0, 0⟩ ⟨2, 0⟩ 1 1) ≠ 1 * 1 / (2 * 2 * 2) := by
  have hsub : fc_v2f_subtract (⟨2, 0⟩ : fc_v2f) ⟨0, 0⟩ = ⟨2, 0⟩ := by
    ext <;> simp [fc_v2f_subtract]
  have hlen : fc_v2f_length ⟨2, 0⟩ = 2 := fc_v2f_length_axis 2 (by norm_num)
  have hrep : fc_repulsive_force ⟨0, 0⟩ ⟨2, 0⟩ 1 1 =
      fc_v2f_multiply ⟨2, 0⟩ (-1 * 1 / (2 * 2 * 2)) := by
    show (if fc_v2f_length (fc_v2f_subtract ⟨2, 0⟩ ⟨0, 0⟩) < FLT_EPSILON then (⟨0, 0⟩ : fc_v2f)
      else fc_v2f_multiply (fc_v2f_subtract ⟨2, 0⟩ ⟨0, 0⟩)
        (-1 * 1 / (fc_v2f_length (fc_v2f_subtract ⟨2, 0⟩ ⟨0, 0⟩) *
          fc_v2f_length (fc_v2f_subtract ⟨2, 0⟩ ⟨0, 0⟩) *
          fc_v2f_length (fc_v2f_subtract ⟨2, 0⟩ ⟨0, 0⟩)))) =
      fc_v2f_multiply ⟨2, 0⟩ (-1 * 1 / (2 * 2 * 2))
    rw [hsub, hlen, if_neg (by norm_num [FLT_EPSILON])]
  rw [hrep, fc_v2f_length_multiply, hlen,
    abs_of_nonpos (by norm_num : (-1 * 1 / (2 * 2 * 2) : ℝ) ≤ 0)]
  norm_num

/-- Claim C3 amended: below FLT_EPSILON separation the repulsive force is the
zero vector; otherwise it has magnitude scale * Dk / dist^2 (inverse square,
not inverse cube) and is directed from b toward a, Dk being the derived
constant passed in as the optimal-distance parameter. -/
theorem fc_repulsive_force_spec (a b : fc_v2f) (s od : ℝ) (hs : 0 ≤ s) (hod : 0 ≤ od) :
    (fc_v2f_length (fc_v2f_subtract b a) < FLT_EPSILON →
      fc_repulsive_force a b s od = ⟨0, 0⟩) ∧
    (FLT_EPSILON ≤ fc_v2f_length (fc_v2f_subtract b a) →
      fc_v2f_length (fc_repulsive_force a b s od) =
        s * od / (fc_v2f_length (fc_v2f_subtract b a) *
          fc_v2f_length (fc_v2f_subtract b a)) ∧
      fc_repulsive_force a b s od =
        fc_v2f_multiply (fc_v2f_subtract a b)
          (s * od / (fc_v2f_length (fc_v2f_subtract b a) *
            fc_v2f_length (fc_v2f_subtract b a) *
            fc_v2f_length (fc_v2f_subtract b a)))) := by
  set d := fc_v2f_length (fc_v2f_subtract b a) with hd
  constructor
  · intro h
    show (if d < FLT_EPSILON then (⟨0, 0⟩ : fc_v2f)
      else fc_v2f_multiply (fc_v2f_subtract b a) (-s * od / (d * d * d))) = ⟨0, 0⟩
    rw [if_pos h]
  · intro h
    have hdpos : 0 < d := lt_of_lt_of_le FLT_EPSILON_pos h
    have hrep : fc_repulsive_force a b s od =
        fc_v2f_multiply (fc_v2f_subtract b a) (-s * od / (d * d * d)) := by
      show (if d < FLT_EPSILON then (⟨0, 0⟩ : fc_v2f)
        else fc_v2f_multiply (fc_v2f_subtract b a) (-s * od / (d * d * d))) =
        fc_v2f_multiply (fc_v2f_subtract b a) (-s * od / (d * d * d))
      rw [if_neg (not_lt.2 h)]
    constructor
    · rw [hrep, fc_v2f_length_multiply, ← hd]
      have habs : |(-s * od / (d * d * d))| = s * od / (d * d * d) := by
        rw [abs_div, abs_of_pos (by positivity : (0 : ℝ) < d * d * d)]
        congr 1
        rw [abs_of_nonpos (by nlinarith : -s * od ≤ 0)]
        ring
      rw [habs]
      field_simp
      ring
    · rw [hrep, fc_v2f_sub_neg a b, fc_v2f_multiply_multiply]
      congr 1
      ring

/-- Witness for C3 amended: at a = (0,0), b = (2,0), scale 1, Dk = 1 the
repulsive-force magnitude equals 1 * 1 / |b-a|^2. -/
theorem fc_repulsive_force_spec_witness :
    FLT_EPSILON ≤ fc_v2f_length (fc_v2f_subtract ⟨2, 0⟩ ⟨0, 0⟩) ∧
    fc_v2f_length (fc_repulsive_force ⟨0, 0⟩ ⟨2, 0⟩ 1 1) =
      1 * 1 / (fc_v2f_length (fc_v2f_subtract ⟨2, 0⟩ ⟨0, 0⟩) *
        fc_v2f_length (fc_v2f_subtract ⟨2, 0⟩ ⟨0, 0⟩)) := by
  have hsub : fc_v2f_subtract (⟨2, 0⟩ : fc_v2f) ⟨0, 0⟩ = ⟨2, 0⟩ := by
    ext <;> simp [fc_v2f_subtract]
  have hlen : FLT_EPSILON ≤ fc_v2f_length (fc_v2f_subtract ⟨2, 0⟩ ⟨0, 0⟩) := by
    rw [hsub, fc_v2f_length_axis 2 (by norm_num)]
    norm_num [FLT_EPSILON]
  exact ⟨hlen,
    ((fc_repulsive_force_spec ⟨0, 0⟩ ⟨2, 0⟩ 1 1 (by norm_num) (by norm_num)).2 hlen).1⟩

/-! Dynamic/batch equivalence. -/

theorem fc_update_node_biggest_nonneg (edges : List fc_edge) (C od c st : ℝ)
    (acc : List fc_node × ℝ × ℝ) (j : ℕ) (h : 0 ≤ acc.2.2) :
    0 ≤ (fc_update_node edges C od c st acc j).2.2 := by
  unfold fc_update_node
  dsimp only
  split
  · exact fc_v2f_length_nonneg _
  · exact h

theorem fc_foldl_biggest_nonneg (edges : List fc_edge) (C od c st : ℝ) :
    ∀ (l : List ℕ) (acc : List fc_node × ℝ × ℝ), 0 ≤ acc.2.2 →
      0 ≤ (List.foldl (fc_update_node edges C od c st) acc l).2.2 := by
  intro l
  induction l with
  | nil => intro acc h; exact h
  | cons j tl ih =>
    intro acc h
    exact ih _ (fc_update_node_biggest_nonneg edges C od c st acc j h)

/-- The biggest movement reported by a dynamic step is never negative. -/
theorem fc_compute_dynamic_step_biggest_nonneg (s : fc_dynamic_layout_state)
    (g : fc_graph) (li : fc_layout_info) :
    0 ≤ (fc_compute_dynamic_step s g li).1.biggest_movement_in_iteration := by
  show 0 ≤ (fc_pass g.nodes g.edges li.repulsive_force_scale (fc_derived_od li)
    li.central_force_scale s.step).2.2
  exact fc_foldl_biggest_nonneg _ _ _ _ _ (List.range g.nodes.length)
    (g.nodes, 0, 0) (le_refl 0)

/-- With a nonpositive movement threshold the batch loop never breaks early:
it is exactly the k-fold iteration of the dynamic step. -/
theorem fc_layout_loop_no_break (li : fc_layout_info) (h : li.min_movement ≤ 0) :
    ∀ (n : ℕ) (sg : fc_dynamic_layout_state × fc_graph) (iter : ℕ),
      fc_layout_loop li n sg iter =
        ((fc_iterate li n sg).1, (fc_iterate li n sg).2, iter + n) := by
  intro n
  induction n with
  | zero => intro sg iter; simp [fc_layout_loop, fc_iterate]
  | succ m ih =>
    intro sg iter
    have hnb : ¬ (fc_compute_dynamic_step sg.1 sg.2 li).1.biggest_movement_in_iteration <
        li.min_movement :=
      not_lt.2 (le_trans h (fc_compute_dynamic_step_biggest_nonneg sg.1 sg.2 li))
    show (if (fc_compute_dynamic_step sg.1 sg.2 li).1.biggest_movement_in_iteration <
        li.min_movement then
        ((fc_compute_dynamic_step sg.1 sg.2 li).1,
          (fc_compute_dynamic_step sg.1 sg.2 li).2, iter + 1)
      else fc_layout_loop li m (fc_compute_dynamic_step sg.1 sg.2 li) (iter + 1)) = _
    rw [if_neg hnb, ih (fc_compute_dynamic_step sg.1 sg.2 li) (iter + 1),
      show iter + 1 + m = iter + (m + 1) by omega]
    rfl

/-- A dynamic step reads only the step, energy and progress fields of the
state, so it agrees on states differing only in the biggest-movement field. -/
theorem fc_compute_dynamic_step_state_ext (s s' : fc_dynamic_layout_state)
    (g : fc_graph) (li : fc_layout_info) (h1 : s.step = s'.step)
    (h2 : s.energy = s'.energy) (h3 : s.progress = s'.progress) :
    fc_compute_dynamic_step s g li = fc_compute_dynamic_step s' g li := by
  cases s
  cases s'
  dsimp at h1 h2 h3
  subst h1
  subst h2
  subst h3
  rfl

/-- Claim C4: after begin (from any prior state contents), k manual calls of
the dynamic step produce exactly the state and node positions of the batch API
run with iteration_cap = k and min_movement = 0, and that batch run performs
exactly k passes. -/
theorem fc_dynamic_batch_equivalence (g : fc_graph) (li : fc_layout_info) (k : ℕ)
    (s0 : fc_dynamic_layout_state) (hk : 1 ≤ k) :
    fc_layout_graph g { li with iteration_cap := k, min_movement := 0 } =
      ((fc_iterate { li with iteration_cap := k, min_movement := 0 } k
          (fc_begin_dynamic_layout s0 { li with iteration_cap := k, min_movement := 0 }, g)).1,
        (fc_iterate { li with iteration_cap := k, min_movement := 0 } k
          (fc_begin_dynamic_layout s0 { li with iteration_cap := k, min_movement := 0 }, g)).2,
        k) := by
  obtain ⟨m, rfl⟩ : ∃ m, k = m + 1 := ⟨k - 1, by omega⟩
  set li2 := { li with iteration_cap := m + 1, min_movement := (0 : ℝ) } with hli2
  have hswap : fc_iterate li2 (m + 1) (fc_begin_dynamic_layout ⟨0, 0, 0, 0⟩ li2, g) =
      fc_iterate li2 (m + 1) (fc_begin_dynamic_layout s0 li2, g) := by
    show fc_iterate li2 m (fc_compute_dynamic_step (fc_begin_dynamic_layout ⟨0, 0, 0, 0⟩ li2)
        g li2) = fc_iterate li2 m (fc_compute_dynamic_step (fc_begin_dynamic_layout s0 li2)
        g li2)
    rw [fc_compute_dynamic_step_state_ext (fc_begin_dynamic_layout ⟨0, 0, 0, 0⟩ li2)
      (fc_begin_dynamic_layout s0 li2) g li2 rfl rfl rfl]
  show fc_layout_loop li2 li2.iteration_cap (fc_begin_dynamic_layout ⟨0, 0, 0, 0⟩ li2, g) 0 = _
  rw [show li2.iteration_cap = m + 1 from rfl,
    fc_layout_loop_no_break li2 (le_of_eq (show li2.min_movement = 0 from rfl)) (m + 1)
      (fc_begin_dynamic_layout ⟨0, 0, 0, 0⟩ li2, g) 0,
    hswap, show 0 + (m + 1) = m + 1 by omega]

/-- Witness for C4: the equivalence at k = 1 on the empty graph with the
default configuration values. -/
theorem fc_dynamic_batch_equivalence_witness :
    fc_layout_graph ⟨[], []⟩
        { fc_layout_info_default with iteration_cap := 1, min_movement := 0 } =
      ((fc_iterate { fc_layout_info_default with iteration_cap := 1, min_movement := 0 } 1
          (fc_begin_dynamic_layout ⟨7, 7, 7, 7⟩
            { fc_layout_info_default with iteration_cap := 1, min_movement := 0 },
           ⟨[], []⟩)).1,
        (fc_iterate { fc_layout_info_default with iteration_cap := 1, min_movement := 0 } 1
          (fc_begin_dynamic_layout ⟨7, 7, 7, 7⟩
            { fc_layout_info_default with iteration_cap := 1, min_movement := 0 },
           ⟨[], []⟩)).2,
        1) :=
  fc_dynamic_batch_equivalence ⟨[], []⟩ fc_layout_info_default 1 ⟨7, 7, 7, 7⟩ (le_refl 1)

/-! Self-loop neutrality. -/

/-- A self-loop edge is skipped by the attractive accumulation. -/
theorem fc_attract_accum_self_loop (nodes : List fc_node) (e : fc_edge)
    (he : e.first = e.second) (l1 l2 : List fc_edge) (i : ℕ) (od : ℝ) :
    fc_attract_accum nodes (l1 ++ e :: l2) i od = fc_attract_accum nodes (l1 ++ l2) i od := by
  unfold fc_attract_accum
  rw [List.foldl_append, List.foldl_append, List.foldl_cons]
  congr 1
  simp [he]

/-- A self-loop edge contributes nothing to the accumulated force on any node. -/
theorem fc_node_force_self_loop (nodes : List fc_node) (e : fc_edge)
    (he : e.first = e.second) (l1 l2 : List fc_edge) (i : ℕ) (C od c : ℝ) :
    fc_node_force nodes (l1 ++ e :: l2) i C od c = fc_node_force nodes (l1 ++ l2) i C od c := by
  unfold fc_node_force fc_node_force_base
  rw [fc_attract_accum_self_loop nodes e he l1 l2 i od]

theorem fc_pass_self_loop (nodes : List fc_node) (e : fc_edge) (he : e.first = e.second)
    (l1 l2 : List fc_edge) (C od c st : ℝ) :
    fc_pass nodes (l1 ++ e :: l2) C od c st = fc_pass nodes (l1 ++ l2) C od c st := by
  unfold fc_pass
  have hfun : fc_update_node (l1 ++ e :: l2) C od c st = fc_update_node (l1 ++ l2) C od c st := by
    funext acc i
    unfold fc_update_node
    rw [fc_node_force_self_loop acc.1 e he l1 l2 i C od c]
  rw [hfun]

/-- One dynamic step on a graph with a self-loop edge: same state, same node
array, the self-loop still stored. -/
theorem fc_compute_dynamic_step_self_loop (e : fc_edge) (he : e.first = e.second)
    (l1 l2 : List fc_edge) (s : fc_dynamic_layout_state) (nodes : List fc_node)
    (li : fc_layout_info) :
    fc_compute_dynamic_step s ⟨nodes, l1 ++ e :: l2⟩ li =
      ((fc_compute_dynamic_step s ⟨nodes, l1 ++ l2⟩ li).1,
       ⟨(fc_compute_dynamic_step s ⟨nodes, l1 ++ l2⟩ li).2.nodes, l1 ++ e :: l2⟩) := by
  unfold fc_compute_dynamic_step
  dsimp only
  rw [fc_pass_self_loop nodes e he l1 l2 li.repulsive_force_scale (fc_derived_od li)
    li.central_force_scale s.step]

theorem fc_iterate_self_loop (e : fc_edge) (he : e.first = e.second)
    (l1 l2 : List fc_edge) (li : fc_layout_info) :
    ∀ (k : ℕ) (s : fc_dynamic_layout_state) (nodes : List fc_node),
      fc_iterate li k (s, ⟨nodes, l1 ++ e :: l2⟩) =
        ((fc_iterate li k (s, ⟨nodes, l1 ++ l2⟩)).1,
         ⟨(fc_iterate li k (s, ⟨nodes, l1 ++ l2⟩)).2.nodes, l1 ++ e :: l2⟩) := by
  intro k
  induction k with
  | zero => intro s nodes; rfl
  | succ m ih =>
    intro s nodes
    show fc_iterate li m (fc_compute_dynamic_step s ⟨nodes, l1 ++ e :: l2⟩ li) = _
    rw [fc_compute_dynamic_step_self_loop e he l1 l2 s nodes li,
      ih (fc_compute_dynamic_step s ⟨nodes, l1 ++ l2⟩ li).1
        (fc_compute_dynamic_step s ⟨nodes, l1 ++ l2⟩ li).2.nodes]
    rfl

/-- Unfolding equation for the batch loop at successor fuel. -/
theorem fc_layout_loop_succ (li : fc_layout_info) (m : ℕ)
    (sg : fc_dynamic_layout_state × fc_graph) (iter : ℕ) :
    fc_layout_loop li (m + 1) sg iter =
      if (fc_compute_dynamic_step sg.1 sg.2 li).1.biggest_movement_in_iteration <
          li.min_movement then
        ((fc_compute_dynamic_step sg.1 sg.2 li).1,
         (fc_compute_dynamic_step sg.1 sg.2 li).2, iter + 1)
      else fc_layout_loop li m (fc_compute_dynamic_step sg.1 sg.2 li) (iter + 1) := rfl

theorem fc_layout_loop_self_loop (e : fc_edge) (he : e.first = e.second)
    (l1 l2 : List fc_edge) (li : fc_layout_info) :
    ∀ (fuel : ℕ) (s : fc_dynamic_layout_state) (nodes : List fc_node) (iter : ℕ),
      fc_layout_loop li fuel (s, ⟨nodes, l1 ++ e :: l2⟩) iter =
        ((fc_layout_loop li fuel (s, ⟨nodes, l1 ++ l2⟩) iter).1,
         ⟨(fc_layout_loop li fuel (s, ⟨nodes, l1 ++ l2⟩) iter).2.1.nodes, l1 ++ e :: l2⟩,
         (fc_layout_loop li fuel (s, ⟨nodes, l1 ++ l2⟩) iter).2.2) := by
  intro fuel
  induction fuel with
  | zero => intro s nodes iter; rfl
  | succ m ih =>
    intro s nodes iter
    have hstep := fc_compute_dynamic_step_self_loop e he l1 l2 s nodes li
    rw [fc_layout_loop_succ li m (s, ⟨nodes, l1 ++ e :: l2⟩) iter,
      fc_layout_loop_succ li m (s, ⟨nodes, l1 ++ l2⟩) iter]
    dsimp only
    rw [hstep]
    by_cases hb : (fc_compute_dynamic_step s ⟨nodes, l1 ++ l2⟩ li).1.biggest_movement_in_iteration <
        li.min_movement
    · rw [if_pos hb, if_pos hb]
    · rw [if_neg hb, if_neg hb,
        ih (fc_compute_dynamic_step s ⟨nodes, l1 ++ l2⟩ li).1
          (fc_compute_dynamic_step s ⟨nodes, l1 ++ l2⟩ li).2.nodes (iter + 1)]
      rfl

/-- Claim C6: a stored self-loop edge contributes no force: with it present,
every k-step dynamic trajectory has the same state and node positions as with
it removed, and the batch API gives the same final state, node positions and
pass count. -/
theorem fc_self_loop_neutrality (e : fc_edge) (he : e.first = e.second)
    (l1 l2 : List fc_edge) (li : fc_layout_info) :
    (∀ (k : ℕ) (s : fc_dynamic_layout_state) (nodes : List fc_node),
      (fc_iterate li k (s, ⟨nodes, l1 ++ e :: l2⟩)).1 =
        (fc_iterate li k (s, ⟨nodes, l1 ++ l2⟩)).1 ∧
      (fc_iterate li k (s, ⟨nodes, l1 ++ e :: l2⟩)).2.nodes =
        (fc_iterate li k (s, ⟨nodes, l1 ++ l2⟩)).2.nodes) ∧
    (∀ nodes : List fc_node,
      (fc_layout_graph ⟨nodes, l1 ++ e :: l2⟩ li).1 =
        (fc_layout_graph ⟨nodes, l1 ++ l2⟩ li).1 ∧
      (fc_layout_graph ⟨nodes, l1 ++ e :: l2⟩ li).2.1.nodes =
        (fc_layout_graph ⟨nodes, l1 ++ l2⟩ li).2.1.nodes ∧
      (fc_layout_graph ⟨nodes, l1 ++ e :: l2⟩ li).2.2 =
        (fc_layout_graph ⟨nodes, l1 ++ l2⟩ li).2.2) := by
  constructor
  · intro k s nodes
    rw [fc_iterate_self_loop e he l1 l2 li k s nodes]
    exact ⟨rfl, rfl⟩
  · intro nodes
    have hg : fc_layout_graph ⟨nodes, l1 ++ e :: l2⟩ li =
        ((fc_layout_graph ⟨nodes, l1 ++ l2⟩ li).1,
         ⟨(fc_layout_graph ⟨nodes, l1 ++ l2⟩ li).2.1.nodes, l1 ++ e :: l2⟩,
         (fc_layout_graph ⟨nodes, l1 ++ l2⟩ li).2.2) :=
      fc_layout_loop_self_loop e he l1 l2 li li.iteration_cap
        (fc_begin_dynamic_layout ⟨0, 0, 0, 0⟩ li) nodes 0
    rw [hg]
    exact ⟨rfl, rfl, rfl⟩

/-- Witness for C6: the self-loop edge (3,3) of weight 1 is neutral for the
batch run on the empty node list with the default configuration. -/
theorem fc_self_loop_neutrality_witness :
    (fc_layout_graph ⟨[], [⟨3, 3, 1⟩]⟩ fc_layout_info_default).1 =
      (fc_layout_graph ⟨[], []⟩ fc_layout_info_default).1 ∧
    (fc_layout_graph ⟨[], [⟨3, 3, 1⟩]⟩ fc_layout_info_default).2.1.nodes =
      (fc_layout_graph ⟨[], []⟩ fc_layout_info_default).2.1.nodes ∧
    (fc_layout_graph ⟨[], [⟨3, 3, 1⟩]⟩ fc_layout_info_default).2.2 =
      (fc_layout_graph ⟨[], []⟩ fc_layout_info_default).2.2 :=
  (fc_self_loop_neutrality ⟨3, 3, 1⟩ rfl [] [] fc_layout_info_default).2 []

/-! A single isolated node. -/

theorem fc_v2f_zero_multiply (c : ℝ) : fc_v2f_multiply ⟨0, 0⟩ c = ⟨0, 0⟩ := by
  simp [fc_v2f_multiply]

/-- The net force on a single node with no edges and no central force. -/
theorem fc_single_node_force (n : fc_node) (C od : ℝ) :
    fc_node_force [n] [] 0 C od 0 = ⟨0, 0⟩ := by
  have h2 : fc_repulse_accum [n] 0 C od ⟨0, 0⟩ = ⟨0, 0⟩ := by
    unfold fc_repulse_accum
    rw [show ([n] : List fc_node).length = 1 from rfl,
      show List.range 1 = [0] from rfl, List.foldl_cons, List.foldl_nil, if_pos rfl]
  unfold fc_node_force fc_node_force_base
  rw [show fc_attract_accum [n] [] 0 od = ⟨0, 0⟩ from rfl, h2,
    fc_attractive_force_zero_scale, fc_v2f_add_zero]

theorem fc_single_node_pass (n : fc_node) (C od st : ℝ) :
    fc_pass [n] [] C od 0 st = ([n], 0, 0) := by
  unfold fc_pass
  rw [show ([n] : List fc_node).length = 1 from rfl,
    show List.range 1 = [0] from rfl, List.foldl_cons, List.foldl_nil]
  unfold fc_update_node
  dsimp only
  rw [fc_single_node_force n C od, fc_v2f_normalize_zero, fc_v2f_zero_multiply,
    fc_v2f_add_zero, fc_v2f_length_zero, if_neg (lt_irrefl (0 : ℝ))]
  rw [show fc_v2f_length_sq ⟨0, 0⟩ = 0 by simp [fc_v2f_length_sq], add_zero]
  rw [show fc_nodePos [n] 0 = n.position from rfl]
  cases n
  rfl

/-- One dynamic step on a one-node, no-edge graph with no central force:
positions are unchanged, the pass energy and biggest movement are 0. -/
theorem fc_single_node_dynamic_step (n : fc_node) (s : fc_dynamic_layout_state)
    (li : fc_layout_info) (hc : li.central_force_scale = 0) :
    fc_compute_dynamic_step s ⟨[n], []⟩ li =
      (⟨(fc_compute_adaptive_step s.progress li.step_multiplier s.step s.energy
          ((0 : ℝ) : EReal)).2,
        ((0 : ℝ) : EReal),
        (fc_compute_adaptive_step s.progress li.step_multiplier s.step s.energy
          ((0 : ℝ) : EReal)).1,
        0⟩,
       ⟨[n], []⟩) := by
  unfold fc_compute_dynamic_step
  dsimp only
  rw [hc, fc_single_node_pass n li.repulsive_force_scale (fc_derived_od li) s.step]

/-- Claim C7: for a one-node, no-edge graph with central_force_scale 0 and
positive min_movement (and at least one allowed iteration), the net force is
the zero vector, one pass leaves the position unchanged with biggest movement
0, and the batch run stops after exactly one pass. -/
theorem fc_single_node_fixed (n : fc_node) (s : fc_dynamic_layout_state)
    (li : fc_layout_info) (hc : li.central_force_scale = 0)
    (hm : 0 < li.min_movement) (hcap : 1 ≤ li.iteration_cap) :
    fc_node_force [n] [] 0 li.repulsive_force_scale (fc_derived_od li)
        li.central_force_scale = ⟨0, 0⟩ ∧
    (fc_compute_dynamic_step s ⟨[n], []⟩ li).2 = ⟨[n], []⟩ ∧
    (fc_compute_dynamic_step s ⟨[n], []⟩ li).1.biggest_movement_in_iteration = 0 ∧
    (fc_layout_graph ⟨[n], []⟩ li).2.1 = ⟨[n], []⟩ ∧
    (fc_layout_graph ⟨[n], []⟩ li).2.2 = 1 := by
  have hforce : fc_node_force [n] [] 0 li.repulsive_force_scale (fc_derived_od li)
      li.central_force_scale = ⟨0, 0⟩ := by
    rw [hc]
    exact fc_single_node_force n li.repulsive_force_scale (fc_derived_od li)
  have hbatch : (fc_layout_graph ⟨[n], []⟩ li).2.1 = ⟨[n], []⟩ ∧
      (fc_layout_graph ⟨[n], []⟩ li).2.2 = 1 := by
    obtain ⟨c, hcap2⟩ : ∃ c, li.iteration_cap = c + 1 := ⟨li.iteration_cap - 1, by omega⟩
    unfold fc_layout_graph
    rw [hcap2, fc_layout_loop_succ]
    dsimp only
    rw [fc_single_node_dynamic_step n (fc_begin_dynamic_layout ⟨0, 0, 0, 0⟩ li) li hc]
    rw [if_pos (by exact hm)]
    exact ⟨rfl, rfl⟩
  refine ⟨hforce, ?_, ?_, hbatch⟩
  · rw [fc_single_node_dynamic_step n s li hc]
  · rw [fc_single_node_dynamic_step n s li hc]

/-- Witness for C7: a node at (5,7) with the default configuration, which has
no central force, min_movement 1 and a positive iteration cap. -/
theorem fc_single_node_fixed_witness :
    fc_node_force [⟨⟨5, 7⟩⟩] [] 0 fc_layout_info_default.repulsive_force_scale
        (fc_derived_od fc_layout_info_default)
        fc_layout_info_default.central_force_scale = ⟨0, 0⟩ ∧
    (fc_compute_dynamic_step ⟨100, ⊤, 0, 0⟩ ⟨[⟨⟨5, 7⟩⟩], []⟩ fc_layout_info_default).2 =
      ⟨[⟨⟨5, 7⟩⟩], []⟩ ∧
    (fc_compute_dynamic_step ⟨100, ⊤, 0, 0⟩ ⟨[⟨⟨5, 7⟩⟩], []⟩
        fc_layout_info_default).1.biggest_movement_in_iteration = 0 ∧
    (fc_layout_graph ⟨[⟨⟨5, 7⟩⟩], []⟩ fc_layout_info_default).2.1 = ⟨[⟨⟨5, 7⟩⟩], []⟩ ∧
    (fc_layout_graph ⟨[⟨⟨5, 7⟩⟩], []⟩ fc_layout_info_default).2.2 = 1 :=
  fc_single_node_fixed ⟨⟨5, 7⟩⟩ ⟨100, ⊤, 0, 0⟩ fc_layout_info_default rfl
    (by norm_num [fc_layout_info_default]) (by norm_num [fc_layout_info_default])

/-! Two nodes with no connecting edge. -/

theorem fc_v2f_length_sub_comm (p q : fc_v2f) :
    fc_v2f_length (fc_v2f_subtract p q) = fc_v2f_length (fc_v2f_subtract q p) := by
  unfold fc_v2f_length fc_v2f_length_sq fc_v2f_subtract
  dsimp only
  rw [show (p.x - q.x) * (p.x - q.x) + (p.y - q.y) * (p.y - q.y)
    = (q.x - p.x) * (q.x - p.x) + (q.y - p.y) * (q.y - p.y) by ring]

/-- Net force on node 0 of a two-node, no-edge graph with no central force. -/
theorem fc_two_node_force0 (p q : fc_v2f) (C od : ℝ) :
    fc_node_force [⟨p⟩, ⟨q⟩] [] 0 C od 0 = fc_repulsive_force p q C od := by
  have h2 : fc_repulse_accum [⟨p⟩, ⟨q⟩] 0 C od ⟨0, 0⟩ = fc_repulsive_force p q C od := by
    unfold fc_repulse_accum
    rw [show ([⟨p⟩, ⟨q⟩] : List fc_node).length = 2 from rfl,
      show List.range 2 = [0, 1] from rfl, List.foldl_cons, List.foldl_cons, List.foldl_nil,
      if_pos rfl, if_neg (by decide : ¬ (0 : ℕ) = 1)]
    rw [show fc_nodePos [⟨p⟩, ⟨q⟩] 0 = p from rfl, show fc_nodePos [⟨p⟩, ⟨q⟩] 1 = q from rfl]
    exact fc_v2f_zero_add _
  unfold fc_node_force fc_node_force_base
  rw [show fc_attract_accum [⟨p⟩, ⟨q⟩] [] 0 od = ⟨0, 0⟩ from rfl, h2,
    show fc_nodePos [⟨p⟩, ⟨q⟩] 0 = p from rfl,
    fc_attractive_force_zero_scale, fc_v2f_add_zero]

/-- Net force on node 1 of a two-node, no-edge graph with no central force. -/
theorem fc_two_node_force1 (p q : fc_v2f) (C od : ℝ) :
    fc_node_force [⟨p⟩, ⟨q⟩] [] 1 C od 0 = fc_repulsive_force q p C od := by
  have h2 : fc_repulse_accum [⟨p⟩, ⟨q⟩] 1 C od ⟨0, 0⟩ = fc_repulsive_force q p C od := by
    unfold fc_repulse_accum
    rw [show ([⟨p⟩, ⟨q⟩] : List fc_node).length = 2 from rfl,
      show List.range 2 = [0, 1] from rfl, List.foldl_cons, List.foldl_cons, List.foldl_nil,
      if_neg (by decide : ¬ (1 : ℕ) = 0), if_pos rfl]
    rw [show fc_nodePos [⟨p⟩, ⟨q⟩] 1 = q from rfl, show fc_nodePos [⟨p⟩, ⟨q⟩] 0 = p from rfl]
    exact fc_v2f_zero_add _
  unfold fc_node_force fc_node_force_base
  rw [show fc_attract_accum [⟨p⟩, ⟨q⟩] [] 1 od = ⟨0, 0⟩ from rfl, h2,
    show fc_nodePos [⟨p⟩, ⟨q⟩] 1 = q from rfl,
    fc_attractive_force_zero_scale, fc_v2f_add_zero]

/-- Below FLT_EPSILON separation, the pass over a two-node, no-edge graph with
no central force moves nothing and accumulates zero energy and movement. -/
theorem fc_two_node_pass_close (p q : fc_v2f) (C od st : ℝ)
    (hd : fc_v2f_length (fc_v2f_subtract q p) < FLT_EPSILON) :
    fc_pass [⟨p⟩, ⟨q⟩] [] C od 0 st = ([⟨p⟩, ⟨q⟩], 0, 0) := by
  have hd2 : fc_v2f_length (fc_v2f_subtract p q) < FLT_EPSILON := by
    rw [fc_v2f_length_sub_comm]; exact hd
  have hrep1 : fc_repulsive_force p q C od = ⟨0, 0⟩ := by
    show (if fc_v2f_length (fc_v2f_subtract q p) < FLT_EPSILON then (⟨0, 0⟩ : fc_v2f)
      else _) = ⟨0, 0⟩
    rw [if_pos hd]
  have hrep2 : fc_repulsive_force q p C od = ⟨0, 0⟩ := by
    show (if fc_v2f_length (fc_v2f_subtract p q) < FLT_EPSILON then (⟨0, 0⟩ : fc_v2f)
      else _) = ⟨0, 0⟩
    rw [if_pos hd2]
  have hu0 : fc_update_node [] C od 0 st ([⟨p⟩, ⟨q⟩], 0, 0) 0 = ([⟨p⟩, ⟨q⟩], 0, 0) := by
    unfold fc_update_node
    dsimp only
    rw [fc_two_node_force0 p q C od, hrep1, fc_v2f_normalize_zero, fc_v2f_zero_multiply,
      fc_v2f_length_zero, if_neg (lt_irrefl (0 : ℝ)),
      show fc_v2f_length_sq ⟨0, 0⟩ = 0 by simp [fc_v2f_length_sq], add_zero,
      show fc_nodePos [⟨p⟩, ⟨q⟩] 0 = p from rfl, fc_v2f_add_zero]
    rfl
  have hu1 : fc_update_node [] C od 0 st ([⟨p⟩, ⟨q⟩], 0, 0) 1 = ([⟨p⟩, ⟨q⟩], 0, 0) := by
    unfold fc_update_node
    dsimp only
    rw [fc_two_node_force1 p q C od, hrep2, fc_v2f_normalize_zero, fc_v2f_zero_multiply,
      fc_v2f_length_zero, if_neg (lt_irrefl (0 : ℝ)),
      show fc_v2f_length_sq ⟨0, 0⟩ = 0 by simp [fc_v2f_length_sq], add_zero,
      show fc_nodePos [⟨p⟩, ⟨q⟩] 1 = q from rfl, fc_v2f_add_zero]
    rfl
  unfold fc_pass
  rw [show ([⟨p⟩, ⟨q⟩] : List fc_node).length = 2 from rfl,
    show List.range 2 = [0, 1] from rfl, List.foldl_cons, List.foldl_cons, List.foldl_nil,
    hu0, hu1]

/-- Counterexample to C8: two unconnected nodes a nonzero distance 2^(-24)
apart (below FLT_EPSILON), with no central force and positive step length 100,
do not move at all in one pass: their separation does not strictly increase. -/
theorem fc_repulsion_only_separation_counterexample :
    (fc_compute_dynamic_step ⟨100, ⊤, 0, 0⟩
        ⟨[⟨⟨0, 0⟩⟩, ⟨⟨1 / 16777216, 0⟩⟩], []⟩ fc_layout_info_default).2.nodes =
      [⟨⟨0, 0⟩⟩, ⟨⟨1 / 16777216, 0⟩⟩] ∧
    ¬ fc_v2f_length (fc_v2f_subtract
        (fc_nodePos (fc_compute_dynamic_step ⟨100, ⊤, 0, 0⟩
          ⟨[⟨⟨0, 0⟩⟩, ⟨⟨1 / 16777216, 0⟩⟩], []⟩ fc_layout_info_default).2.nodes 1)
        (fc_nodePos (fc_compute_dynamic_step ⟨100, ⊤, 0, 0⟩
          ⟨[⟨⟨0, 0⟩⟩, ⟨⟨1 / 16777216, 0⟩⟩], []⟩ fc_layout_info_default).2.nodes 0)) >
      fc_v2f_length (fc_v2f_subtract ⟨1 / 16777216, 0⟩ ⟨0, 0⟩) := by
  have hsub : fc_v2f_subtract (⟨1 / 16777216, 0⟩ : fc_v2f) ⟨0, 0⟩ = ⟨1 / 16777216, 0⟩ := by
    ext <;> simp [fc_v2f_subtract]
  have hd : fc_v2f_length (fc_v2f_subtract (⟨1 / 16777216, 0⟩ : fc_v2f) ⟨0, 0⟩) <
      FLT_EPSILON := by
    rw [hsub, fc_v2f_length_axis (1 / 16777216) (by norm_num)]
    norm_num [FLT_EPSILON]
  have hnodes : (fc_compute_dynamic_step ⟨100, ⊤, 0, 0⟩
      ⟨[⟨⟨0, 0⟩⟩, ⟨⟨1 / 16777216, 0⟩⟩], []⟩ fc_layout_info_default).2.nodes =
      [⟨⟨0, 0⟩⟩, ⟨⟨1 / 16777216, 0⟩⟩] := by
    show (fc_pass [⟨⟨0, 0⟩⟩, ⟨⟨1 / 16777216, 0⟩⟩] []
      fc_layout_info_default.repulsive_force_scale (fc_derived_od fc_layout_info_default)
      fc_layout_info_default.central_force_scale 100).1 = _
    rw [show fc_layout_info_default.central_force_scale = 0 from rfl,
      fc_two_node_pass_close ⟨0, 0⟩ ⟨1 / 16777216, 0⟩ _ _ 100 hd]
  refine ⟨hnodes, ?_⟩
  rw [hnodes]
  rw [show fc_nodePos [⟨⟨0, 0⟩⟩, ⟨⟨1 / 16777216, 0⟩⟩] 1 = ⟨1 / 16777216, 0⟩ from rfl,
    show fc_nodePos [⟨⟨0, 0⟩⟩, ⟨⟨1 / 16777216, 0⟩⟩] 0 = ⟨0, 0⟩ from rfl]
  exact lt_irrefl _

theorem fc_v2f_sub_both_moved (p q : fc_v2f) (b c : ℝ) :
    fc_v2f_subtract (fc_v2f_add q (fc_v2f_multiply (fc_v2f_subtract q p) b))
      (fc_v2f_add p (fc_v2f_multiply (fc_v2f_subtract q p) c)) =
      fc_v2f_multiply (fc_v2f_subtract q p) (1 + b - c) := by
  ext <;> simp [fc_v2f_subtract, fc_v2f_add, fc_v2f_multiply] <;> ring

/-- The node-array component of a per-node update, independent of the energy
and movement accumulators. -/
theorem fc_update_node_fst (edges : List fc_edge) (C od c st : ℝ)
    (acc : List fc_node × ℝ × ℝ) (i : ℕ) :
    (fc_update_node edges C od c st acc i).1 =
      acc.1.set i ⟨fc_v2f_add (fc_nodePos acc.1 i)
        (fc_v2f_multiply (fc_v2f_normalize (fc_node_force acc.1 edges i C od c)) st)⟩ := rfl

/-- Claim C8 amended: two unconnected nodes with no central force strictly
increase their separation in one pass, provided the starting separation is at
least FLT_EPSILON and the repulsive-force magnitude scale*Dk/dist^2 is at
least FLT_EPSILON (otherwise the epsilon guards freeze one or both nodes and
the separation merely never decreases). -/
theorem fc_repulsion_only_separation_increase (p q : fc_v2f)
    (s : fc_dynamic_layout_state) (li : fc_layout_info)
    (hc : li.central_force_scale = 0)
    (hC : 0 < li.repulsive_force_scale)
    (hD : 0 < li.optimal_distance)
    (hst : 0 < s.step)
    (hd : FLT_EPSILON ≤ fc_v2f_length (fc_v2f_subtract q p))
    (hF : FLT_EPSILON ≤ li.repulsive_force_scale * fc_derived_od li /
      (fc_v2f_length (fc_v2f_subtract q p) * fc_v2f_length (fc_v2f_subtract q p))) :
    fc_v2f_length (fc_v2f_subtract
        (fc_nodePos (fc_compute_dynamic_step s ⟨[⟨p⟩, ⟨q⟩], []⟩ li).2.nodes 1)
        (fc_nodePos (fc_compute_dynamic_step s ⟨[⟨p⟩, ⟨q⟩], []⟩ li).2.nodes 0)) >
      fc_v2f_length (fc_v2f_subtract q p) := by
  set C := li.repulsive_force_scale with hCdef
  set od := fc_derived_od li with hoddef
  set st := s.step with hstdef
  set v := fc_v2f_subtract q p with hvdef
  set d := fc_v2f_length v with hddef
  have hdpos : 0 < d := lt_of_lt_of_le FLT_EPSILON_pos hd
  have hodpos : 0 < od := by
    rw [hoddef]
    unfold fc_derived_od
    exact div_pos (by positivity) hC
  have hgnodes : (fc_compute_dynamic_step s ⟨[⟨p⟩, ⟨q⟩], []⟩ li).2.nodes =
      (fc_update_node [] C od 0 st
        (fc_update_node [] C od 0 st ([⟨p⟩, ⟨q⟩], 0, 0) 0) 1).1 := by
    show (fc_pass [⟨p⟩, ⟨q⟩] [] li.repulsive_force_scale (fc_derived_od li)
      li.central_force_scale s.step).1 = _
    rw [hc]
    unfold fc_pass
    rw [show ([⟨p⟩, ⟨q⟩] : List fc_node).length = 2 from rfl,
      show List.range 2 = [0, 1] from rfl, List.foldl_cons, List.foldl_cons, List.foldl_nil]
  have hrep0 : fc_repulsive_force p q C od =
      fc_v2f_multiply v (-C * od / (d * d * d)) := by
    show (if fc_v2f_length (fc_v2f_subtract q p) < FLT_EPSILON then (⟨0, 0⟩ : fc_v2f)
      else fc_v2f_multiply (fc_v2f_subtract q p)
        (-C * od / (fc_v2f_length (fc_v2f_subtract q p) *
          fc_v2f_length (fc_v2f_subtract q p) * fc_v2f_length (fc_v2f_subtract q p)))) = _
    rw [← hvdef, ← hddef, if_neg (not_lt.2 hd)]
  have hL0 : fc_v2f_length (fc_v2f_multiply v (-C * od / (d * d * d))) =
      C * od / (d * d) := by
    rw [fc_v2f_length_multiply, ← hddef]
    rw [show |(-C * od / (d * d * d))| = C * od / (d * d * d) by
      rw [abs_div, abs_of_pos (by positivity : (0 : ℝ) < d * d * d),
        abs_of_nonpos (by nlinarith : -C * od ≤ 0)]
      ring]
    field_simp
    ring
  have hdp0 : fc_v2f_multiply (fc_v2f_normalize
      (fc_v2f_multiply v (-C * od / (d * d * d)))) st = fc_v2f_multiply v (-(st / d)) := by
    rw [fc_v2f_normalize_of_big _ (by rw [hL0]; exact hF), hL0,
      fc_v2f_multiply_multiply, fc_v2f_multiply_multiply]
    congr 1
    field_simp
    ring
  have hn1 : (fc_update_node [] C od 0 st ([⟨p⟩, ⟨q⟩], 0, 0) 0).1 =
      [⟨fc_v2f_add p (fc_v2f_multiply v (-(st / d)))⟩, ⟨q⟩] := by
    rw [fc_update_node_fst]
    rw [show fc_node_force ([⟨p⟩, ⟨q⟩], (0 : ℝ), (0 : ℝ)).1 [] 0 C od 0 =
      fc_repulsive_force p q C od from fc_two_node_force0 p q C od, hrep0, hdp0]
    rfl
  set p1 := fc_v2f_add p (fc_v2f_multiply v (-(st / d))) with hp1def
  have hsubqp1 : fc_v2f_subtract q p1 = fc_v2f_multiply v (1 + st / d) := by
    rw [hp1def, hvdef, fc_v2f_sub_after_move p q (-(st / d)), ← hvdef]
    congr 1
    ring
  have hlen1 : fc_v2f_length (fc_v2f_subtract q p1) = d + st := by
    rw [hsubqp1, fc_v2f_length_multiply, ← hddef,
      abs_of_pos (by positivity : (0 : ℝ) < 1 + st / d)]
    field_simp
  have hsubp1q : fc_v2f_subtract p1 q = fc_v2f_multiply v (-(1 + st / d)) := by
    rw [fc_v2f_sub_neg p1 q, hsubqp1, fc_v2f_multiply_multiply]
    congr 1
    ring
  have hd1 : fc_v2f_length (fc_v2f_subtract p1 q) = d + st := by
    rw [fc_v2f_length_sub_comm]
    exact hlen1
  have hd1ge : FLT_EPSILON ≤ d + st := le_trans hd (by linarith)
  have hrep1 : fc_repulsive_force q p1 C od =
      fc_v2f_multiply v (-(1 + st / d) * (-C * od / ((d + st) * (d + st) * (d + st)))) := by
    show (if fc_v2f_length (fc_v2f_subtract p1 q) < FLT_EPSILON then (⟨0, 0⟩ : fc_v2f)
      else fc_v2f_multiply (fc_v2f_subtract p1 q)
        (-C * od / (fc_v2f_length (fc_v2f_subtract p1 q) *
          fc_v2f_length (fc_v2f_subtract p1 q) * fc_v2f_length (fc_v2f_subtract p1 q)))) = _
    rw [hd1, if_neg (not_lt.2 hd1ge), hsubp1q, fc_v2f_multiply_multiply]
  have habs1 : |(-(1 + st / d))| = 1 + st / d := by
    rw [abs_neg, abs_of_pos (by positivity : (0 : ℝ) < 1 + st / d)]
  have habs2 : |(-C * od / ((d + st) * (d + st) * (d + st)))| =
      C * od / ((d + st) * (d + st) * (d + st)) := by
    rw [abs_div, abs_of_pos (by positivity : (0 : ℝ) < (d + st) * (d + st) * (d + st)),
      abs_of_nonpos (by nlinarith : -C * od ≤ 0)]
    ring
  have hL1 : fc_v2f_length (fc_v2f_multiply v
      (-(1 + st / d) * (-C * od / ((d + st) * (d + st) * (d + st))))) =
      C * od / ((d + st) * (d + st)) := by
    rw [fc_v2f_length_multiply, ← hddef, abs_mul, habs1, habs2]
    field_simp
    ring
  by_cases hcase : C * od / ((d + st) * (d + st)) < FLT_EPSILON
  · have hnorm1 : fc_v2f_normalize (fc_v2f_multiply v
        (-(1 + st / d) * (-C * od / ((d + st) * (d + st) * (d + st))))) = ⟨0, 0⟩ := by
      unfold fc_v2f_normalize
      rw [hL1, if_pos hcase]
    have hn2 : (fc_update_node [] C od 0 st
        (fc_update_node [] C od 0 st ([⟨p⟩, ⟨q⟩], 0, 0) 0) 1).1 =
        [⟨p1⟩, ⟨q⟩] := by
      rw [fc_update_node_fst, hn1]
      rw [fc_two_node_force1 p1 q C od, hrep1, hnorm1, fc_v2f_zero_multiply,
        show fc_nodePos [⟨p1⟩, ⟨q⟩] 1 = q from rfl, fc_v2f_add_zero]
      rfl
    rw [hgnodes, hn2,
      show fc_nodePos [⟨p1⟩, (⟨q⟩ : fc_node)] 1 = q from rfl,
      show fc_nodePos [⟨p1⟩, (⟨q⟩ : fc_node)] 0 = p1 from rfl, hlen1]
    linarith
  · have hdp1 : fc_v2f_multiply (fc_v2f_normalize (fc_v2f_multiply v
        (-(1 + st / d) * (-C * od / ((d + st) * (d + st) * (d + st)))))) st =
        fc_v2f_multiply v (st / d) := by
      rw [fc_v2f_normalize_of_big _ (by rw [hL1]; exact not_lt.1 hcase), hL1,
        fc_v2f_multiply_multiply, fc_v2f_multiply_multiply]
      congr 1
      field_simp
      ring
    have hn2 : (fc_update_node [] C od 0 st
        (fc_update_node [] C od 0 st ([⟨p⟩, ⟨q⟩], 0, 0) 0) 1).1 =
        [⟨p1⟩, ⟨fc_v2f_add q (fc_v2f_multiply v (st / d))⟩] := by
      rw [fc_update_node_fst, hn1]
      rw [fc_two_node_force1 p1 q C od, hrep1, hdp1,
        show fc_nodePos [⟨p1⟩, ⟨q⟩] 1 = q from rfl]
      rfl
    have hsubq2p1 : fc_v2f_subtract (fc_v2f_add q (fc_v2f_multiply v (st / d))) p1 =
        fc_v2f_multiply v (1 + st / d + st / d) := by
      rw [hp1def, hvdef, fc_v2f_sub_both_moved p q (st / d) (-(st / d)), ← hvdef]
      congr 1
      ring
    have hlen2 : fc_v2f_length (fc_v2f_subtract
        (fc_v2f_add q (fc_v2f_multiply v (st / d))) p1) = d + (st + st) := by
      rw [hsubq2p1, fc_v2f_length_multiply, ← hddef,
        abs_of_pos (by positivity : (0 : ℝ) < 1 + st / d + st / d)]
      field_simp
      ring
    rw [hgnodes, hn2,
      show fc_nodePos [⟨p1⟩, (⟨fc_v2f_add q (fc_v2f_multiply v (st / d))⟩ : fc_node)] 1 =
        fc_v2f_add q (fc_v2f_multiply v (st / d)) from rfl,
      show fc_nodePos [⟨p1⟩, (⟨fc_v2f_add q (fc_v2f_multiply v (st / d))⟩ : fc_node)] 0 =
        p1 from rfl, hlen2]
    linarith

/-- Witness for C8 amended: nodes at (0,0) and (16,0), default configuration,
step length 1: the separation strictly exceeds 16 after one pass. -/
theorem fc_repulsion_only_separation_increase_witness :
    fc_v2f_length (fc_v2f_subtract
        (fc_nodePos (fc_compute_dynamic_step ⟨1, 0, 0, 0⟩
          ⟨[⟨⟨0, 0⟩⟩, ⟨⟨16, 0⟩⟩], []⟩ fc_layout_info_default).2.nodes 1)
        (fc_nodePos (fc_compute_dynamic_step ⟨1, 0, 0, 0⟩
          ⟨[⟨⟨0, 0⟩⟩, ⟨⟨16, 0⟩⟩], []⟩ fc_layout_info_default).2.nodes 0)) >
      fc_v2f_length (fc_v2f_subtract ⟨16, 0⟩ ⟨0, 0⟩) := by
  have hsub : fc_v2f_subtract (⟨16, 0⟩ : fc_v2f) ⟨0, 0⟩ = ⟨16, 0⟩ := by
    ext <;> simp [fc_v2f_subtract]
  have hlen : fc_v2f_length (fc_v2f_subtract (⟨16, 0⟩ : fc_v2f) ⟨0, 0⟩) = 16 := by
    rw [hsub, fc_v2f_length_axis 16 (by norm_num)]
  exact fc_repulsion_only_separation_increase ⟨0, 0⟩ ⟨16, 0⟩ ⟨1, 0, 0, 0⟩
    fc_layout_info_default rfl (by norm_num [fc_layout_info_default])
    (by norm_num [fc_layout_info_default]) (by norm_num)
    (by rw [hlen]; norm_num [FLT_EPSILON])
    (by rw [hlen]; norm_num [fc_layout_info_default, fc_derived_od, FLT_EPSILON])

/-! The isolated-edge equilibrium. -/

/-- Net force on node 0 of a two-node graph joined by the edge (0,1) of
weight w, with no central force. -/
theorem fc_two_node_edge_force0 (p q : fc_v2f) (w C od : ℝ) :
    fc_node_force [⟨p⟩, ⟨q⟩] [⟨0, 1, w⟩] 0 C od 0 =
      fc_v2f_add (fc_attractive_force p q w od) (fc_repulsive_force p q C od) := by
  have h1 : fc_attract_accum [⟨p⟩, ⟨q⟩] [⟨0, 1, w⟩] 0 od = fc_attractive_force p q w od := by
    show fc_v2f_add ⟨0, 0⟩ (fc_attractive_force p q w od) = fc_attractive_force p q w od
    exact fc_v2f_zero_add _
  have h2 : fc_repulse_accum [⟨p⟩, ⟨q⟩] 0 C od (fc_attractive_force p q w od) =
      fc_v2f_add (fc_attractive_force p q w od) (fc_repulsive_force p q C od) := by
    unfold fc_repulse_accum
    rw [show ([⟨p⟩, ⟨q⟩] : List fc_node).length = 2 from rfl,
      show List.range 2 = [0, 1] from rfl, List.foldl_cons, List.foldl_cons, List.foldl_nil,
      if_pos rfl, if_neg (by decide : ¬ (0 : ℕ) = 1)]
    rfl
  unfold fc_node_force fc_node_force_base
  rw [h1, h2, show fc_nodePos [⟨p⟩, ⟨q⟩] 0 = p from rfl,
    fc_attractive_force_zero_scale, fc_v2f_add_zero]

/-- Evaluation of the isolated-edge net force on the x axis at separation d at
least FLT_EPSILON. -/
theorem fc_twoNodeNetForce_eval (D w C d : ℝ) (hd : FLT_EPSILON ≤ d) :
    fc_twoNodeNetForce D w C d =
      ⟨d * (w * d / ((D * D * D * D) / C)) +
        d * (-C * ((D * D * D * D) / C) / (d * d * d)), 0⟩ := by
  have hd0 : (0 : ℝ) ≤ d := le_trans FLT_EPSILON_pos.le hd
  have hsub : fc_v2f_subtract (⟨d, 0⟩ : fc_v2f) ⟨0, 0⟩ = ⟨d, 0⟩ := by
    ext <;> simp [fc_v2f_subtract]
  have hlen : fc_v2f_length (fc_v2f_subtract (⟨d, 0⟩ : fc_v2f) ⟨0, 0⟩) = d := by
    rw [hsub]
    exact fc_v2f_length_axis d hd0
  have hattr : fc_attractive_force ⟨0, 0⟩ ⟨d, 0⟩ w ((D * D * D * D) / C) =
      ⟨d * (w * d / ((D * D * D * D) / C)), 0⟩ := by
    show fc_v2f_multiply (fc_v2f_subtract ⟨d, 0⟩ ⟨0, 0⟩)
      (w * fc_v2f_length (fc_v2f_subtract ⟨d, 0⟩ ⟨0, 0⟩) / ((D * D * D * D) / C)) = _
    rw [hlen, hsub]
    ext <;> simp [fc_v2f_multiply]
  have hrep : fc_repulsive_force ⟨0, 0⟩ ⟨d, 0⟩ C ((D * D * D * D) / C) =
      ⟨d * (-C * ((D * D * D * D) / C) / (d * d * d)), 0⟩ := by
    show (if fc_v2f_length (fc_v2f_subtract ⟨d, 0⟩ ⟨0, 0⟩) < FLT_EPSILON then (⟨0, 0⟩ : fc_v2f)
      else fc_v2f_multiply (fc_v2f_subtract ⟨d, 0⟩ ⟨0, 0⟩)
        (-C * ((D * D * D * D) / C) / (fc_v2f_length (fc_v2f_subtract ⟨d, 0⟩ ⟨0, 0⟩) *
          fc_v2f_length (fc_v2f_subtract ⟨d, 0⟩ ⟨0, 0⟩) *
          fc_v2f_length (fc_v2f_subtract ⟨d, 0⟩ ⟨0, 0⟩)))) = _
    rw [hlen, hsub, if_neg (not_lt.2 hd)]
    ext <;> simp [fc_v2f_multiply]
  unfold fc_twoNodeNetForce
  rw [fc_two_node_edge_force0 ⟨0, 0⟩ ⟨d, 0⟩ w C ((D * D * D * D) / C), hattr, hrep]
  ext <;> simp [fc_v2f_add]

/-- Counterexample to C1: at the claimed converged separation 32 for D = 16,
w = 1, scale 0.6, the engine's net force on node 0 is (3/320 - 64, 0): far
from zero and pointing away from the other node, so 32 is not the equilibrium
separation of the code's force model. -/
theorem fc_two_node_claimed_equilibrium_counterexample :
    fc_twoNodeNetForce 16 1 (3 / 5) 32 = ⟨3 / 320 - 64, 0⟩ ∧
    fc_twoNodeNetForce 16 1 (3 / 5) 32 ≠ ⟨0, 0⟩ ∧
    (fc_twoNodeNetForce 16 1 (3 / 5) 32).x < 0 := by
  have heval := fc_twoNodeNetForce_eval 16 1 (3 / 5) 32 (by norm_num [FLT_EPSILON])
  have hval : fc_twoNodeNetForce 16 1 (3 / 5) 32 = ⟨3 / 320 - 64, 0⟩ := by
    rw [heval]
    ext <;> norm_num
  refine ⟨hval, ?_, ?_⟩
  · rw [hval]
    intro h
    have hx : (3 / 320 - 64 : ℝ) = 0 := congrArg fc_v2f.x h
    norm_num at hx
  · rw [hval]
    norm_num

/-- Claim C1 amended: for the isolated edge of weight w the net force on a
node vanishes exactly when the separation d satisfies d^4 = D^8 / (w * scale):
the equilibrium separation is D^2 / (w * scale)^(1/4), which depends on
repulsive_force_scale and is not D^(5/4) / w^(1/4). -/
theorem fc_two_node_equilibrium_iff (D w C d : ℝ) (hD : 0 < D) (hw : 0 < w)
    (hC : 0 < C) (hd : FLT_EPSILON ≤ d) :
    (fc_twoNodeNetForce D w C d = ⟨0, 0⟩ ↔ d * d * (d * d) = D ^ 8 / (w * C)) := by
  have hdpos : 0 < d := lt_of_lt_of_le FLT_EPSILON_pos hd
  have heval := fc_twoNodeNetForce_eval D w C d hd
  have hXeq : d * (w * d / ((D * D * D * D) / C)) +
      d * (-C * ((D * D * D * D) / C) / (d * d * d)) =
      (w * C * (d * d * (d * d)) - D ^ 8) / ((D * D * D * D) * (d * d)) := by
    field_simp
    ring
  have hden : ((D * D * D * D) * (d * d)) ≠ 0 := by positivity
  rw [heval]
  have hmk : ((⟨d * (w * d / ((D * D * D * D) / C)) +
      d * (-C * ((D * D * D * D) / C) / (d * d * d)), 0⟩ : fc_v2f) = ⟨0, 0⟩) ↔
      d * (w * d / ((D * D * D * D) / C)) +
        d * (-C * ((D * D * D * D) / C) / (d * d * d)) = 0 := by
    constructor
    · intro h
      exact congrArg fc_v2f.x h
    · intro h
      rw [h]
  rw [hmk, hXeq, div_eq_zero_iff, or_iff_left hden, sub_eq_zero,
    eq_div_iff (show (w * C) ≠ 0 by positivity)]
  constructor <;> intro h <;> linear_combination h

/-- Witness for C1 amended: D = 2, w = 1, scale = 16 and separation 2 satisfy
2^4 = 2^8 / 16, and there the net force is exactly zero. -/
theorem fc_two_node_equilibrium_iff_witness :
    fc_twoNodeNetForce 2 1 16 2 = ⟨0, 0⟩ :=
  (fc_two_node_equilibrium_iff 2 1 16 2 (by norm_num) (by norm_num) (by norm_num)
    (by norm_num [FLT_EPSILON])).mpr (by norm_num)

end FcLayout
